import Mathlib

/-!
Verification of the live rollout monitor (`src/dashboard.rs`) of the devit
repository.  The Rust code is shallowly embedded: pure helpers become Lean
functions, the stateful discovery / drain / render steps become explicit
state-passing functions, and the fallible external calls (kube client,
terminal, log streams) become `Except`-valued parameters so that every
control path of the source is represented.
-/

/-- Embedding of Rust `str::trim` as used on each raw log line
(`line.trim().to_string()` in `Dashboard::run_loop`): leading and trailing
whitespace characters are removed. -/
def rustTrim (s : String) : String :=
  String.mk (((s.data.dropWhile Char.isWhitespace).reverse.dropWhile Char.isWhitespace).reverse)

/-- Embedding of Rust `str::to_uppercase` as used on the extracted log level
(`s.to_uppercase()` in `Dashboard::run_loop`). -/
def rustToUpper (s : String) : String := String.mk (s.data.map Char.toUpper)

/-- Embedding of Rust `str::contains` with a string pattern
(`i.contains(&self.tag)` in `Dashboard::run_loop`): substring search, true
iff some suffix of `s` starts with `pat`. -/
def strContains (s pat : String) : Bool :=
  (List.range (s.data.length + 1)).any fun i => pat.data.isPrefixOf (s.data.drop i)

/-- Generation of a pod: pre-rollout (`Old`) or post-rollout (`New`). -/
inductive Generation where
  | Old
  | New
deriving DecidableEq

/-- The Generation Classifier: the `is_new` computation of
`Dashboard::run_loop` on a container image string and the target tag
(`i.contains(&self.tag)`). -/
def classifyGeneration (image tag : String) : Generation :=
  if strContains image tag then Generation.New else Generation.Old

/-- JSON values, mirroring `serde_json::Value`; objects keep their fields as
an association list. -/
inductive Json where
  | null
  | bool (b : Bool)
  | num (n : Int)
  | str (s : String)
  | arr (xs : List Json)
  | obj (fields : List (String × Json))

/-- Embedding of `serde_json::Value::get(key)`: a field lookup that yields
`none` on every non-object value. -/
def Json.get : Json → String → Option Json
  | .obj fields, key => fields.lookup key
  | _, _ => none

/-- Embedding of `serde_json::Value::as_str`. -/
def Json.asStr : Json → Option String
  | .str s => some s
  | _ => none

/-- True exactly on JSON objects. -/
def Json.isObj : Json → Bool
  | .obj _ => true
  | _ => false

/-- The `LogLine` struct of `dashboard.rs`: one structured record produced by
a Tail Worker and sent on the merge channel. -/
structure LogLine where
  pod_name : String
  content : String
  level : Option String
  timestamp : Option String
  is_new : Bool
deriving DecidableEq

/-- The per-line parsing step of the spawned tail task in
`Dashboard::run_loop`.  The raw line is trimmed; `parsed` is the result of
`serde_json::from_str` on that trimmed text (`none` models malformed JSON).
On a JSON value the level, timestamp and message fields are extracted by the
source's fallback chains; on anything else the record keeps the trimmed raw
line as its message with level and timestamp absent. -/
def parseLogLine (pod : String) (is_new : Bool) (line : String) (parsed : Option Json) : LogLine :=
  let raw := rustTrim line
  match parsed with
  | none => ⟨pod, raw, none, none, is_new⟩
  | some v =>
    let level := ((v.get "severity" <|> v.get "level").bind Json.asStr).map rustToUpper
    let timestamp := (v.get "timestamp" <|> v.get "time").bind Json.asStr
    let msg := (v.get "message" <|> v.get "msg" <|> v.get "textPayload" <|>
        (v.get "fields").bind (fun f => f.get "message")).bind Json.asStr
    ⟨pod, msg.getD raw, level, timestamp, is_new⟩

/-- Modelled from the spec: severity is the first present of keys
`severity`, `level`, case-normalized upper, else absent. -/
def specSeverity (fields : List (String × Json)) : Option String :=
  ((fields.lookup "severity" <|> fields.lookup "level").bind Json.asStr).map rustToUpper

/-- Modelled from the spec: timestamp is the first present of keys
`timestamp`, `time`, else absent. -/
def specTimestamp (fields : List (String × Json)) : Option String :=
  (fields.lookup "timestamp" <|> fields.lookup "time").bind Json.asStr

/-- Modelled from the spec: message is the first present of keys `message`,
`msg`, `textPayload`, or nested `fields.message`, else absent (the caller
keeps the raw line). -/
def specMessage (fields : List (String × Json)) : Option String :=
  (fields.lookup "message" <|> fields.lookup "msg" <|> fields.lookup "textPayload" <|>
    (fields.lookup "fields").bind (fun f => f.get "message")).bind Json.asStr

/-- The JSON object of the spec's Scenario B. -/
def scenarioB : Json :=
  Json.obj [("severity", Json.str "ERROR"), ("message", Json.str "boom"),
    ("timestamp", Json.str "2024-01-01T10:00:00Z")]

/-- One item of a followed log stream as the tail task sees it: each
`lines.next().await` yields either a text line or a read error. -/
inductive StreamItem where
  | line (s : String)
  | readErr (e : String)
deriving DecidableEq

/-- True on successfully read lines. -/
def streamItemOk : StreamItem → Bool
  | .line _ => true
  | .readErr _ => false

/-- The Tail Worker: the task spawned per pod in `Dashboard::run_loop`,
embedded as a function from the outcome of `api.log_stream` (open error, or
the sequence of read results) to the list of records it sends on the
channel.  `oracle` stands for `serde_json::from_str` applied to a trimmed
line.  An open error produces the single synthetic error record of the
source's `Err(e)` arm; a read error matches no `Ok(line)` and produces
nothing. -/
def tailWorker (pod : String) (is_new : Bool) (oracle : String → Option Json) :
    Except String (List StreamItem) → List LogLine
  | .error e => [⟨pod, "Error streaming logs: " ++ e, some "ERROR", none, is_new⟩]
  | .ok items => items.filterMap fun it =>
      match it with
      | .line l => some (parseLogLine pod is_new l (oracle (rustTrim l)))
      | .readErr _ => none

/-- Embedding of Rust `s.split(c).last().unwrap_or(..)`: the portion of `s`
after the last occurrence of `c` (all of `s` when `c` is absent). -/
def afterLast (c : Char) (s : String) : String :=
  String.mk ((s.data.reverse.takeWhile (fun x => x != c)).reverse)

/-- Embedding of Rust `s.split(c).next().unwrap_or(..)`: the portion of `s`
before the first occurrence of `c` (all of `s` when `c` is absent). -/
def beforeFirst (c : Char) (s : String) : String :=
  String.mk (s.data.takeWhile (fun x => x != c))

/-- `Dashboard::format_log_line`: pod suffix after the last `-`, the
timestamp's portion after `T` truncated at the first `.` followed by a space
(empty when the timestamp is absent), the level defaulted to `INFO`, and the
message. -/
def formatLogLine (log : LogLine) : String :=
  let pod_id := afterLast '-' log.pod_name
  let ts := match log.timestamp with
    | none => ""
    | some t => beforeFirst '.' (afterLast 'T' t) ++ " "
  let level := log.level.getD "INFO"
  "[" ++ pod_id ++ "] " ++ ts ++ level ++ " " ++ log.content

/-- The two generation-partitioned display buffers of `Dashboard`. -/
structure Buffers where
  old_logs : List String
  new_logs : List String
deriving DecidableEq

/-- One buffer append of the drain step: `push(display_line)` followed by
`if len > 100 { remove(0) }`. -/
def pushLog (buf : List String) (line : String) : List String :=
  if (buf ++ [line]).length > 100 then (buf ++ [line]).tail else buf ++ [line]

/-- One iteration of the drain loop (`while let Ok(log) = rx.try_recv()`):
format the record and append it to the buffer of its generation. -/
def drainStep (bufs : Buffers) (log : LogLine) : Buffers :=
  let display := formatLogLine log
  if log.is_new then { bufs with new_logs := pushLog bufs.new_logs display }
  else { bufs with old_logs := pushLog bufs.old_logs display }

/-- The full drain of all records currently available on the channel. -/
def drainLogs (bufs : Buffers) (incoming : List LogLine) : Buffers :=
  incoming.foldl drainStep bufs

/-- The log column built by `Dashboard::ui`:
`buf.iter().rev().take(50)`. -/
def renderColumn (buf : List String) : List String :=
  List.take 50 buf.reverse

/-- First container of a pod spec (`k8s_openapi` `Container`): only the
image is consulted. -/
structure ContainerK8s where
  image : Option String

/-- Pod spec: the container list. -/
structure PodSpecData where
  containers : List ContainerK8s

/-- Pod status: the phase. -/
structure PodStatusData where
  phase : Option String

/-- A pod as returned by the cluster list call, restricted to the fields
`Dashboard::run_loop` reads. -/
structure PodK8s where
  name : Option String
  status : Option PodStatusData
  spec : Option PodSpecData

/-- `p.metadata.name.clone().unwrap_or_default()`. -/
def podName (p : PodK8s) : String := p.name.getD ""

/-- `p.status.as_ref().and_then(|s| s.phase.clone()).unwrap_or("Unknown")`. -/
def podPhase (p : PodK8s) : String := (p.status.bind PodStatusData.phase).getD "Unknown"

/-- The `is_new` chain of `Dashboard::run_loop`:
`p.spec.and_then(first container).map(image contains tag).unwrap_or(false)`. -/
def podIsNew (tag : String) (p : PodK8s) : Bool :=
  ((p.spec.bind fun s => s.containers.head?).map fun c =>
    (c.image.map fun i => strContains i tag).getD false).getD false

/-- The `PodInfo` struct of `dashboard.rs`. -/
structure PodInfo where
  name : String
  status : String
  is_new : Bool

/-- Accumulator of the per-pod loop inside one discovery tick: the
`current_pods` list being built, the `tailed_pods` set, and the pod names
for which a Tail Worker was spawned during the tick. -/
structure TickAcc where
  pods : List PodInfo
  tailed : Finset String
  spawned : List String

/-- The session state owned by the render loop: the current pod list and the
`tailed_pods` set. -/
structure SessionSt where
  pods : List PodInfo
  tailedPods : Finset String

/-- The body of the `for p in pod_list.items` loop of one discovery tick:
derive name, phase and generation; when the pod is Running and not yet
tailed, record it in `tailed_pods` and spawn a worker; always push the
`PodInfo`. -/
def stepPod (tag : String) (acc : TickAcc) (p : PodK8s) : TickAcc :=
  if podName p ∉ acc.tailed ∧ podPhase p = "Running" then
    { pods := acc.pods ++ [⟨podName p, podPhase p, podIsNew tag p⟩],
      tailed := insert (podName p) acc.tailed,
      spawned := acc.spawned ++ [podName p] }
  else
    { pods := acc.pods ++ [⟨podName p, podPhase p, podIsNew tag p⟩],
      tailed := acc.tailed,
      spawned := acc.spawned }

/-- One discovery tick: `if let Ok(pod_list) = pods_api.list(&lp).await`.
A failed list call performs nothing at all; a successful one replaces the
pod list wholesale and spawns workers for new Running pods.  The second
component is the list of pod names spawned during the tick. -/
def discoveryTick (tag : String) (st : SessionSt) (listRes : Except String (List PodK8s)) :
    SessionSt × List String :=
  match listRes with
  | .error _ => (st, [])
  | .ok items =>
    let acc := items.foldl (stepPod tag) ⟨[], st.tailedPods, []⟩
    (⟨acc.pods, acc.tailed⟩, acc.spawned)

/-- The session at monitor start: no pods, empty `tailed_pods`. -/
def initialSession : SessionSt := ⟨[], ∅⟩

/-- A sequence of discovery ticks across the monitor's lifetime, collecting
every spawned pod name. -/
def runTicks (tag : String) (st : SessionSt) :
    List (Except String (List PodK8s)) → SessionSt × List String
  | [] => (st, [])
  | r :: rs =>
    ((runTicks tag (discoveryTick tag st r).1 rs).1,
      (discoveryTick tag st r).2 ++ (runTicks tag (discoveryTick tag st r).1 rs).2)

/-- Terminal modes toggled by `Dashboard::run`. -/
structure TermState where
  rawMode : Bool
  altScreen : Bool

/-- Outcomes of every fallible step of `Dashboard::run`, in source order:
`enable_raw_mode()?`, `execute!(EnterAlternateScreen, ..)?`,
`Terminal::new(..)?`, `Config::from_kubeconfig(..)?`, `Client::try_from(..)?`,
the `run_loop` result, then `disable_raw_mode()?`,
`execute!(LeaveAlternateScreen, ..)?` and `show_cursor()?`. -/
structure RunSteps where
  enableRaw : Except String Unit
  enterAlt : Except String Unit
  newTerminal : Except String Unit
  loadKubeconfig : Except String Unit
  createClient : Except String Unit
  loopResult : Except String Unit
  disableRaw : Except String Unit
  leaveAlt : Except String Unit
  showCursor : Except String Unit

/-- What `Dashboard::run` leaves behind: the terminal state at return,
whether `run_loop` was entered, and the returned result. -/
structure RunResult where
  term : TermState
  loopEntered : Bool
  result : Except String Unit

/-- `Dashboard::run`, step by step.  Each `?` is an early return carrying
the terminal state reached so far; the `.context(..)` calls of the source
wrap the kubeconfig and client errors. -/
def runMonitor (s : RunSteps) : RunResult :=
  match s.enableRaw with
  | .error e => ⟨⟨false, false⟩, false, .error e⟩
  | .ok _ =>
    match s.enterAlt with
    | .error e => ⟨⟨true, false⟩, false, .error e⟩
    | .ok _ =>
      match s.newTerminal with
      | .error e => ⟨⟨true, true⟩, false, .error e⟩
      | .ok _ =>
        match s.loadKubeconfig with
        | .error e => ⟨⟨true, true⟩, false, .error ("Failed to load kubeconfig: " ++ e)⟩
        | .ok _ =>
          match s.createClient with
          | .error e => ⟨⟨true, true⟩, false, .error ("Failed to create K8s client: " ++ e)⟩
          | .ok _ =>
            match s.disableRaw with
            | .error e => ⟨⟨true, true⟩, true, .error e⟩
            | .ok _ =>
              match s.leaveAlt with
              | .error e => ⟨⟨false, true⟩, true, .error e⟩
              | .ok _ =>
                match s.showCursor with
                | .error e => ⟨⟨false, false⟩, true, .error e⟩
                | .ok _ => ⟨⟨false, false⟩, true, s.loopResult⟩

/-- A run whose every external step succeeds. -/
def allOkSteps : RunSteps :=
  ⟨.ok (), .ok (), .ok (), .ok (), .ok (), .ok (), .ok (), .ok (), .ok ()⟩

/-- A run where only the cluster client construction fails. -/
def clientFailSteps : RunSteps := { allOkSteps with createClient := .error "boom" }

/-- One hundred and one pairwise distinct display lines. -/
def sampleLines : List String := (List.range 101).map (fun n => toString n)

theorem strContains_iff (s pat : String) : strContains s pat = true ↔ pat.data <:+: s.data := by
  unfold strContains
  simp only [List.any_eq_true, List.mem_range, List.isPrefixOf_iff_prefix]
  constructor
  · rintro ⟨i, -, hpre⟩
    exact List.infix_iff_prefix_suffix.mpr ⟨s.data.drop i, hpre, List.drop_suffix i s.data⟩
  · rintro ⟨t, u, hts⟩
    refine ⟨t.length, ?_, ?_⟩
    · have hlen := congrArg List.length hts
      simp only [List.length_append] at hlen
      omega
    · rw [← hts, List.append_assoc, List.drop_left]
      exact List.prefix_append pat.data u

/-- Claim C3: the Generation Classifier is a pure total function of the image
string and the target tag; it yields `New` exactly when the tag occurs as a
substring of the image, `Old` otherwise, and image `gcr.io/proj/app:v2` with
tag `v2` classifies as `New`. -/
theorem generation_classifier_substring :
    (∀ image tag : String,
      classifyGeneration image tag = Generation.New ↔ tag.data <:+: image.data) ∧
    (∀ image tag : String,
      classifyGeneration image tag = Generation.New ∨
        classifyGeneration image tag = Generation.Old) ∧
    classifyGeneration "gcr.io/proj/app:v2" "v2" = Generation.New := by
  refine ⟨fun image tag => ?_, fun image tag => ?_, by decide⟩
  · unfold classifyGeneration
    rw [← strContains_iff]
    constructor
    · intro h
      by_contra hc
      rw [Bool.not_eq_true] at hc
      simp [hc] at h
    · intro h
      simp [h]
  · unfold classifyGeneration
    split
    · exact Or.inl rfl
    · exact Or.inr rfl

/-- Claim C4: the Log Parser is total, and any line that does not parse as a
JSON object — malformed JSON (`parsed = none`) or a non-object JSON value —
yields the plain-text result: the trimmed raw line as the message, severity
and timestamp absent. -/
theorem log_parser_non_object (pod : String) (is_new : Bool) (line : String)
    (j : Json) (hj : j.isObj = false) :
    parseLogLine pod is_new line none = ⟨pod, rustTrim line, none, none, is_new⟩ ∧
    parseLogLine pod is_new line (some j) = parseLogLine pod is_new line none := by
  refine ⟨rfl, ?_⟩
  cases j with
  | obj fields => simp [Json.isObj] at hj
  | null => rfl
  | bool b => rfl
  | num n => rfl
  | str s => rfl
  | arr xs => rfl

/-- Witness for C4: the spec's Scenario C (`plain text` is not JSON) and a
non-object JSON value (an array) both fall back to the raw line. -/
theorem log_parser_non_object_witness :
    parseLogLine "pod-1" false "plain text" none
      = ⟨"pod-1", rustTrim "plain text", none, none, false⟩ ∧
    parseLogLine "pod-1" false "plain text" (some (Json.arr []))
      = parseLogLine "pod-1" false "plain text" none :=
  log_parser_non_object "pod-1" false "plain text" (Json.arr []) rfl

/-- Claim C5: on a JSON object the Log Parser takes severity from the first
present of keys `severity`, `level` (upper-cased), timestamp from the first
present of `timestamp`, `time`, and the message from the first present of
`message`, `msg`, `textPayload`, nested `fields.message`, else the trimmed
raw line; the spec's Scenario B object parses accordingly. -/
theorem log_parser_json_object (pod : String) (is_new : Bool) (line : String)
    (fields : List (String × Json)) :
    (parseLogLine pod is_new line (some (Json.obj fields))).level = specSeverity fields ∧
    (parseLogLine pod is_new line (some (Json.obj fields))).timestamp = specTimestamp fields ∧
    (parseLogLine pod is_new line (some (Json.obj fields))).content
      = (specMessage fields).getD (rustTrim line) ∧
    parseLogLine pod is_new line (some scenarioB)
      = ⟨pod, "boom", some "ERROR", some "2024-01-01T10:00:00Z", is_new⟩ := by
  exact ⟨rfl, rfl, rfl, rfl⟩

/-- Claim C8: a failed pod-list call leaves the session state (pod list and
tailed set) exactly as before the tick and spawns no worker, and the next
successful tick behaves exactly as it would have without the failure. -/
theorem discovery_tick_failure_frame (tag e : String) (st : SessionSt)
    (next : List PodK8s) :
    discoveryTick tag st (Except.error e) = (st, []) ∧
    discoveryTick tag (discoveryTick tag st (Except.error e)).1 (Except.ok next)
      = discoveryTick tag st (Except.ok next) :=
  ⟨rfl, rfl⟩

/-- Counterexample to claim C1 as stated: a stream-read error does not make
the worker emit a synthetic ERROR record and stop.  On the stream
`[read error "boom", line "hello"]` the worker emits exactly the parsed
record for `hello` — no ERROR-severity record at all, and a further record
after the error. -/
theorem tail_worker_read_error_counterexample :
    tailWorker "pod-1" true (fun _ => none)
        (Except.ok [StreamItem.readErr "boom", StreamItem.line "hello"])
      = [⟨"pod-1", "hello", none, none, true⟩] ∧
    (⟨"pod-1", "hello", none, none, true⟩ : LogLine).level ≠ some "ERROR" :=
  ⟨rfl, by decide⟩

/-- Claim C1 amended: a stream-OPEN failure makes the worker send exactly one
synthetic ERROR record describing the failure, attributed to the pod, and
terminate without retrying; a stream-READ error, in contrast, is silently
skipped — it contributes no record and the worker continues with the
remaining items, emitting one record per successfully read line. -/
theorem tail_worker_error_behaviour (pod : String) (is_new : Bool)
    (oracle : String → Option Json) (e : String) (items : List StreamItem) :
    tailWorker pod is_new oracle (Except.error e)
      = [⟨pod, "Error streaming logs: " ++ e, some "ERROR", none, is_new⟩] ∧
    tailWorker pod is_new oracle (Except.ok (StreamItem.readErr e :: items))
      = tailWorker pod is_new oracle (Except.ok items) ∧
    (tailWorker pod is_new oracle (Except.ok items)).length = items.countP streamItemOk := by
  refine ⟨rfl, rfl, ?_⟩
  induction items with
  | nil => rfl
  | cons it rest ih =>
    cases it with
    | line l => simp [tailWorker, streamItemOk, List.countP_cons] at ih ⊢; omega
    | readErr f => simp [tailWorker, streamItemOk, List.countP_cons] at ih ⊢; omega

/-- Counterexample to claim C2 as stated: when only the cluster-client
construction fails, the monitor does abort before the render loop, but the
terminal HAS been put into raw mode and into the alternate screen, and the
early error return leaves both unreleased. -/
theorem terminal_restore_counterexample :
    (runMonitor clientFailSteps).loopEntered = false ∧
    (runMonitor clientFailSteps).term.rawMode = true ∧
    (runMonitor clientFailSteps).term.altScreen = true :=
  ⟨rfl, rfl, rfl⟩

/-- Claim C2 amended: raw mode and the alternate screen are acquired before
the cluster client is constructed; on client-construction failure the
monitor aborts before entering the render loop but the early return skips
restoration, leaving raw mode and the alternate screen active.  Restoration
runs only on the path where setup succeeds: there raw mode and the alternate
screen are released after the loop returns, whatever the loop's result,
provided the restoration steps themselves succeed. -/
theorem terminal_lifecycle (s : RunSteps) (e : String)
    (h1 : s.enableRaw = Except.ok ()) (h2 : s.enterAlt = Except.ok ())
    (h3 : s.newTerminal = Except.ok ()) (h4 : s.loadKubeconfig = Except.ok ()) :
    (s.createClient = Except.error e →
      (runMonitor s).loopEntered = false ∧
      (runMonitor s).term.rawMode = true ∧
      (runMonitor s).term.altScreen = true ∧
      (runMonitor s).result = Except.error ("Failed to create K8s client: " ++ e)) ∧
    (s.createClient = Except.ok () → s.disableRaw = Except.ok () →
      s.leaveAlt = Except.ok () → s.showCursor = Except.ok () →
      (runMonitor s).loopEntered = true ∧
      (runMonitor s).term.rawMode = false ∧
      (runMonitor s).term.altScreen = false ∧
      (runMonitor s).result = s.loopResult) := by
  constructor
  · intro h5
    simp [runMonitor, h1, h2, h3, h4, h5]
  · intro h5 h6 h7 h8
    simp [runMonitor, h1, h2, h3, h4, h5, h6, h7, h8]

/-- Witness for the amended C2 at the concrete client-failure run. -/
theorem terminal_lifecycle_witness :
    (clientFailSteps.createClient = Except.error "boom" →
      (runMonitor clientFailSteps).loopEntered = false ∧
      (runMonitor clientFailSteps).term.rawMode = true ∧
      (runMonitor clientFailSteps).term.altScreen = true ∧
      (runMonitor clientFailSteps).result
        = Except.error ("Failed to create K8s client: " ++ "boom")) ∧
    (clientFailSteps.createClient = Except.ok () →
      clientFailSteps.disableRaw = Except.ok () →
      clientFailSteps.leaveAlt = Except.ok () →
      clientFailSteps.showCursor = Except.ok () →
      (runMonitor clientFailSteps).loopEntered = true ∧
      (runMonitor clientFailSteps).term.rawMode = false ∧
      (runMonitor clientFailSteps).term.altScreen = false ∧
      (runMonitor clientFailSteps).result = clientFailSteps.loopResult) :=
  terminal_lifecycle clientFailSteps "boom" rfl rfl rfl rfl

theorem pushLog_length_le (buf : List String) (x : String) (h : buf.length ≤ 100) :
    (pushLog buf x).length ≤ 100 := by
  unfold pushLog
  split
  · rename_i hgt
    simp only [List.length_tail, List.length_append, List.length_singleton]
    omega
  · rename_i hle
    simp only [List.length_append, List.length_singleton] at hle ⊢
    omega

theorem foldl_pushLog_no_evict (l : List String) (buf : List String)
    (h : buf.length + l.length ≤ 100) :
    List.foldl pushLog buf l = buf ++ l := by
  induction l generalizing buf with
  | nil => simp
  | cons x xs ih =>
    rw [List.foldl_cons]
    simp only [List.length_cons] at h
    have hp : pushLog buf x = buf ++ [x] := by
      unfold pushLog
      rw [if_neg]
      simp only [List.length_append, List.length_singleton]
      omega
    rw [hp, ih (buf ++ [x]) (by simp only [List.length_append, List.length_singleton]; omega)]
    simp

theorem foldl_pushLog_101 (lines : List String) (h : lines.length = 101) :
    List.foldl pushLog [] lines = lines.tail := by
  have hne : lines ≠ [] := by
    intro h0
    rw [h0] at h
    simp at h
  have hdecomp := List.dropLast_append_getLast hne
  have hlen : lines.dropLast.length = 100 := by
    rw [List.length_dropLast, h]
  have hdne : lines.dropLast ≠ [] := by
    intro h0
    rw [h0] at hlen
    simp at hlen
  calc List.foldl pushLog [] lines
      = List.foldl pushLog [] (lines.dropLast ++ [lines.getLast hne]) := by rw [hdecomp]
    _ = pushLog (List.foldl pushLog [] lines.dropLast) (lines.getLast hne) := by
        rw [List.foldl_append]
        rfl
    _ = pushLog lines.dropLast (lines.getLast hne) := by
        rw [foldl_pushLog_no_evict lines.dropLast []]
        · rw [List.nil_append]
        · simp [hlen]
    _ = (lines.dropLast ++ [lines.getLast hne]).tail := by
        unfold pushLog
        rw [if_pos]
        simp [hlen]
    _ = lines.tail := by rw [hdecomp]

/-- Claim C7: draining keeps each generation buffer within 100 entries, and
101 sequential appends of pairwise distinct entries to a fresh buffer leave
exactly the last 100: length 100, the first entry evicted, the 101st
present. -/
theorem generation_buffer_capacity (bufs : Buffers) (incoming : List LogLine)
    (hold : bufs.old_logs.length ≤ 100) (hnew : bufs.new_logs.length ≤ 100)
    (lines : List String) (h101 : lines.length = 101) (hnd : lines.Nodup)
    (e1 e101 : String) (hh : lines.head? = some e1) (hl : lines.getLast? = some e101) :
    (drainLogs bufs incoming).old_logs.length ≤ 100 ∧
    (drainLogs bufs incoming).new_logs.length ≤ 100 ∧
    (List.foldl pushLog [] lines).length = 100 ∧
    e1 ∉ List.foldl pushLog [] lines ∧
    e101 ∈ List.foldl pushLog [] lines := by
  have hdrain : ∀ (inc : List LogLine) (b : Buffers), b.old_logs.length ≤ 100 →
      b.new_logs.length ≤ 100 →
      (drainLogs b inc).old_logs.length ≤ 100 ∧ (drainLogs b inc).new_logs.length ≤ 100 := by
    intro inc
    induction inc with
    | nil => intro b h1 h2; exact ⟨h1, h2⟩
    | cons lg rest ih =>
      intro b h1 h2
      show (drainLogs (drainStep b lg) rest).old_logs.length ≤ 100 ∧ _
      apply ih
      · unfold drainStep
        split
        · exact h1
        · exact pushLog_length_le _ _ h1
      · unfold drainStep
        split
        · exact pushLog_length_le _ _ h2
        · exact h2
  have hfold := foldl_pushLog_101 lines h101
  obtain ⟨hd1, hd2⟩ := hdrain incoming bufs hold hnew
  have hcons : lines = e1 :: lines.tail := by
    cases lines with
    | nil => simp at hh
    | cons a t =>
      simp only [List.head?_cons, Option.some.injEq] at hh
      rw [hh]
      rfl
  refine ⟨hd1, hd2, ?_, ?_, ?_⟩
  · rw [hfold, List.length_tail, h101]
  · rw [hfold]
    intro hmem
    have : ¬ e1 ∈ lines.tail := by
      rw [hcons] at hnd
      exact (List.nodup_cons.mp hnd).1
    exact this hmem
  · rw [hfold]
    obtain ⟨ys, hys⟩ := List.getLast?_eq_some_iff.mp hl
    have hysne : ys ≠ [] := by
      intro h0
      rw [h0] at hys
      rw [hys] at h101
      simp at h101
    rw [hys]
    cases ys with
    | nil => exact absurd rfl hysne
    | cons a t =>
      simp

/-- Witness for C7: 101 distinct numeric strings pushed into an empty buffer. -/
theorem generation_buffer_capacity_witness :
    (drainLogs ⟨[], []⟩ []).old_logs.length ≤ 100 ∧
    (drainLogs ⟨[], []⟩ []).new_logs.length ≤ 100 ∧
    (List.foldl pushLog [] sampleLines).length = 100 ∧
    "0" ∉ List.foldl pushLog [] sampleLines ∧
    "100" ∈ List.foldl pushLog [] sampleLines :=
  generation_buffer_capacity ⟨[], []⟩ [] (by decide) (by decide) sampleLines
    (by decide) (by decide) "0" "100" (by decide) (by decide)

/-- Claim C9: the rendered log column shows at most 50 entries, its first
entry is the buffer's most recently appended one, and entry `i` is the
buffer's entry at position `length - 1 - i` — most-recent-first order. -/
theorem render_most_recent_first (buf : List String) (i : Nat) (hne : buf ≠ [])
    (hi : i < (renderColumn buf).length) :
    (renderColumn buf).length ≤ 50 ∧
    (renderColumn buf).head? = some (buf.getLast hne) ∧
    (renderColumn buf)[i]? = buf[buf.length - 1 - i]? := by
  have hlen : (renderColumn buf).length = min 50 buf.length := by
    unfold renderColumn
    rw [List.length_take, List.length_reverse]
  refine ⟨?_, ?_, ?_⟩
  · rw [hlen]
    omega
  · have hrev : buf.reverse.head? = some (buf.getLast hne) := by
      rw [List.head?_reverse, List.getLast?_eq_getLast buf hne]
    unfold renderColumn
    cases hb : buf.reverse with
    | nil =>
      rw [hb] at hrev
      simp at hrev
    | cons a t =>
      rw [hb] at hrev
      simp only [List.head?_cons, Option.some.injEq] at hrev
      rw [List.take_succ_cons, List.head?_cons, hrev]
  · have hi50 : i < 50 := by
      rw [hlen] at hi
      omega
    have hibuf : i < buf.length := by
      rw [hlen] at hi
      omega
    unfold renderColumn
    rw [List.getElem?_take, if_pos hi50, List.getElem?_reverse hibuf]

/-- Witness for C9 on a three-entry buffer at rendered position 1. -/
theorem render_most_recent_first_witness :
    (renderColumn ["a", "b", "c"]).length ≤ 50 ∧
    (renderColumn ["a", "b", "c"]).head? = some (["a", "b", "c"].getLast (by decide)) ∧
    (renderColumn ["a", "b", "c"])[1]? = ["a", "b", "c"][["a", "b", "c"].length - 1 - 1]? :=
  render_most_recent_first ["a", "b", "c"] 1 (by decide) (by decide)

theorem stepPod_tailed_mono (tag : String) (acc : TickAcc) (p : PodK8s) :
    acc.tailed ⊆ (stepPod tag acc p).tailed := by
  unfold stepPod
  split
  · exact Finset.subset_insert _ _
  · exact Finset.Subset.refl _

theorem foldl_stepPod_tailed_mono (tag : String) (items : List PodK8s) (acc : TickAcc) :
    acc.tailed ⊆ (items.foldl (stepPod tag) acc).tailed := by
  induction items generalizing acc with
  | nil => exact Finset.Subset.refl _
  | cons p rest ih =>
    exact Finset.Subset.trans (stepPod_tailed_mono tag acc p) (ih (stepPod tag acc p))

theorem foldl_stepPod_spawned_inv (tag : String) (items : List PodK8s) (acc : TickAcc)
    (hnd : acc.spawned.Nodup) (hmem : ∀ n ∈ acc.spawned, n ∈ acc.tailed) :
    (items.foldl (stepPod tag) acc).spawned.Nodup ∧
      ∀ n ∈ (items.foldl (stepPod tag) acc).spawned, n ∈ (items.foldl (stepPod tag) acc).tailed := by
  induction items generalizing acc with
  | nil => exact ⟨hnd, hmem⟩
  | cons p rest ih =>
    apply ih (stepPod tag acc p)
    · unfold stepPod
      split
      · rename_i hcond
        simp only [List.nodup_append, List.nodup_singleton, true_and]
        refine ⟨hnd, ?_⟩
        intro x hx hmemx
        simp only [List.mem_singleton] at hmemx
        exact hcond.1 (hmemx ▸ hmem x hx)
      · exact hnd
    · unfold stepPod
      split
      · rename_i hcond
        intro n hn
        simp only [List.mem_append, List.mem_singleton] at hn
        rcases hn with hn | hn
        · exact Finset.mem_insert_of_mem (hmem n hn)
        · subst hn
          exact Finset.mem_insert_self _ _
      · exact hmem

theorem foldl_stepPod_spawned_src (tag : String) (items : List PodK8s) (acc : TickAcc)
    (n : String) (hn : n ∈ (items.foldl (stepPod tag) acc).spawned) :
    n ∈ acc.spawned ∨
      (n ∉ acc.tailed ∧ ∃ p ∈ items, podName p = n ∧ podPhase p = "Running") := by
  induction items generalizing acc with
  | nil => exact Or.inl hn
  | cons p rest ih =>
    rcases ih (stepPod tag acc p) hn with h | ⟨hnt, q, hq, hqn, hqr⟩
    · revert h
      unfold stepPod
      split
      · rename_i hcond
        intro h
        simp only [List.mem_append, List.mem_singleton] at h
        rcases h with h | h
        · exact Or.inl h
        · subst h
          exact Or.inr ⟨hcond.1, p, List.mem_cons_self p rest, rfl, hcond.2⟩
      · intro h
        exact Or.inl h
    · refine Or.inr ⟨?_, q, List.mem_cons_of_mem p hq, hqn, hqr⟩
      intro hmem
      exact hnt (stepPod_tailed_mono tag acc p hmem)

theorem discoveryTick_tailed_mono (tag : String) (st : SessionSt)
    (r : Except String (List PodK8s)) :
    st.tailedPods ⊆ (discoveryTick tag st r).1.tailedPods := by
  cases r with
  | error e => exact Finset.Subset.refl _
  | ok items => exact foldl_stepPod_tailed_mono tag items ⟨[], st.tailedPods, []⟩

theorem discoveryTick_spawned_src (tag : String) (st : SessionSt) (items : List PodK8s)
    (n : String) (hn : n ∈ (discoveryTick tag st (Except.ok items)).2) :
    n ∉ st.tailedPods ∧ ∃ p ∈ items, podName p = n ∧ podPhase p = "Running" := by
  rcases foldl_stepPod_spawned_src tag items ⟨[], st.tailedPods, []⟩ n hn with h | h
  · simp at h
  · exact h

theorem discoveryTick_spawned_inv (tag : String) (st : SessionSt)
    (r : Except String (List PodK8s)) :
    (discoveryTick tag st r).2.Nodup ∧
      ∀ n ∈ (discoveryTick tag st r).2, n ∈ (discoveryTick tag st r).1.tailedPods := by
  cases r with
  | error e => exact ⟨List.nodup_nil, by intro n hn; simp [discoveryTick] at hn⟩
  | ok items =>
    exact foldl_stepPod_spawned_inv tag items ⟨[], st.tailedPods, []⟩ List.nodup_nil
      (by intro n hn; simp at hn)

theorem runTicks_spawned_not_tailed (tag : String)
    (rs : List (Except String (List PodK8s))) (st : SessionSt) (n : String)
    (hn : n ∈ (runTicks tag st rs).2) : n ∉ st.tailedPods := by
  induction rs generalizing st with
  | nil => simp [runTicks] at hn
  | cons r rest ih =>
    unfold runTicks at hn
    simp only [List.mem_append] at hn
    rcases hn with hn | hn
    · cases r with
      | error e => simp [discoveryTick] at hn
      | ok items => exact (discoveryTick_spawned_src tag st items n hn).1
    · intro hmem
      exact ih (discoveryTick tag st r).1 hn (discoveryTick_tailed_mono tag st r hmem)

theorem runTicks_spawned_nodup (tag : String)
    (rs : List (Except String (List PodK8s))) (st : SessionSt) :
    (runTicks tag st rs).2.Nodup := by
  induction rs generalizing st with
  | nil => exact List.nodup_nil
  | cons r rest ih =>
    unfold runTicks
    rw [List.nodup_append]
    refine ⟨(discoveryTick_spawned_inv tag st r).1, ih _, ?_⟩
    intro x hx hx2
    exact runTicks_spawned_not_tailed tag rest (discoveryTick tag st r).1 x hx2
      ((discoveryTick_spawned_inv tag st r).2 x hx)

/-- Claim C6: across any sequence of discovery ticks from monitor start no
pod name is ever spawned twice; a tick never removes a name from the tailed
set; and a worker is spawned only for a pod whose derived phase is exactly
`Running` and whose name was not yet in the tailed set at the tick's start. -/
theorem tail_worker_spawned_at_most_once (tag : String)
    (ticks : List (Except String (List PodK8s))) :
    (runTicks tag initialSession ticks).2.Nodup ∧
    (∀ (st : SessionSt) (r : Except String (List PodK8s)),
      st.tailedPods ⊆ (discoveryTick tag st r).1.tailedPods) ∧
    (∀ (st : SessionSt) (items : List PodK8s) (n : String),
      n ∈ (discoveryTick tag st (Except.ok items)).2 →
        n ∉ st.tailedPods ∧ ∃ p ∈ items, podName p = n ∧ podPhase p = "Running") :=
  ⟨runTicks_spawned_nodup tag ticks initialSession,
    fun st r => discoveryTick_tailed_mono tag st r,
    fun st items n hn => discoveryTick_spawned_src tag st items n hn⟩

theorem takeWhile_append_stop (p : Char → Bool) (l1 l2 : List Char) (c : Char)
    (h1 : ∀ x ∈ l1, p x = true) (hc : p c = false) :
    (l1 ++ c :: l2).takeWhile p = l1 := by
  induction l1 with
  | nil => simp [List.takeWhile_cons, hc]
  | cons a t ih =>
    have ha := h1 a (List.mem_cons_self a t)
    simp only [List.cons_append, List.takeWhile_cons, ha, if_true]
    rw [ih (fun x hx => h1 x (List.mem_cons_of_mem a hx))]

theorem afterLast_eq (c : Char) (a b : List Char) (hb : c ∉ b) :
    afterLast c (String.mk (a ++ c :: b)) = String.mk b := by
  unfold afterLast
  apply congrArg
  show ((a ++ c :: b).reverse.takeWhile (fun x => x != c)).reverse = b
  have hrev : (a ++ c :: b).reverse = b.reverse ++ c :: a.reverse := by
    simp
  rw [hrev, takeWhile_append_stop _ _ _ _ ?all ?stop, List.reverse_reverse]
  case all =>
    intro x hx
    rw [List.mem_reverse] at hx
    simp only [bne_iff_ne]
    intro hxc
    exact hb (hxc ▸ hx)
  case stop => simp

theorem beforeFirst_eq (c : Char) (a b : List Char) (ha : c ∉ a) :
    beforeFirst c (String.mk (a ++ c :: b)) = String.mk a := by
  unfold beforeFirst
  apply congrArg
  show (a ++ c :: b).takeWhile (fun x => x != c) = a
  apply takeWhile_append_stop
  · intro x hx
    simp only [bne_iff_ne]
    intro hxc
    exact ha (hxc ▸ hx)
  · simp

/-- Claim C10: the displayed line is
`[<pod-name suffix after its last dash>] <time> <LEVEL> <message>`: an
absent severity is displayed as `INFO` (indistinguishable from a real INFO),
a present timestamp is reduced to its portion after `T` truncated at the
first `.`, and the time field is omitted entirely when the timestamp is
absent. -/
theorem format_log_line_shape (pa sa da tm fr : List Char) (lvl msg : String)
    (is_new : Bool) (hsa : '-' ∉ sa) (htm : 'T' ∉ tm) (hfr : 'T' ∉ fr)
    (hdot : '.' ∉ tm) :
    formatLogLine ⟨String.mk (pa ++ '-' :: sa), msg, some lvl,
        some (String.mk (da ++ 'T' :: (tm ++ '.' :: fr))), is_new⟩
      = "[" ++ String.mk sa ++ "] " ++ String.mk tm ++ " " ++ lvl ++ " " ++ msg ∧
    formatLogLine ⟨String.mk (pa ++ '-' :: sa), msg, none,
        some (String.mk (da ++ 'T' :: (tm ++ '.' :: fr))), is_new⟩
      = "[" ++ String.mk sa ++ "] " ++ String.mk tm ++ " " ++ "INFO" ++ " " ++ msg ∧
    formatLogLine ⟨String.mk (pa ++ '-' :: sa), msg, some lvl, none, is_new⟩
      = "[" ++ String.mk sa ++ "] " ++ lvl ++ " " ++ msg := by
  have hpod : afterLast '-' (String.mk (pa ++ '-' :: sa)) = String.mk sa :=
    afterLast_eq '-' pa sa hsa
  have hts1 : afterLast 'T' (String.mk (da ++ 'T' :: (tm ++ '.' :: fr)))
      = String.mk (tm ++ '.' :: fr) := by
    apply afterLast_eq
    intro hmem
    rcases List.mem_append.mp hmem with h | h
    · exact htm h
    · rcases List.mem_cons.mp h with h | h
      · exact absurd h (by decide)
      · exact hfr h
  have hts2 : beforeFirst '.' (String.mk (tm ++ '.' :: fr)) = String.mk tm :=
    beforeFirst_eq '.' tm fr hdot
  refine ⟨?_, ?_, ?_⟩
  · simp only [formatLogLine, hpod, hts1, hts2, Option.getD_some, String.append_assoc]
  · simp only [formatLogLine, hpod, hts1, hts2, Option.getD_none, String.append_assoc]
  · simp only [formatLogLine, hpod, Option.getD_some, String.append_empty,
      String.empty_append, String.append_assoc]

/-- Witness for C10 on a concrete record: pod `my-pod-x1`, timestamp
`2024-01-01T10:00:00.5Z`, level `WARN` or absent, message `hello`. -/
theorem format_log_line_shape_witness :
    formatLogLine ⟨String.mk ("my-pod".data ++ '-' :: "x1".data), "hello", some "WARN",
        some (String.mk ("2024-01-01".data ++ 'T' :: ("10:00:00".data ++ '.' :: "5Z".data))),
        true⟩
      = "[" ++ String.mk "x1".data ++ "] " ++ String.mk "10:00:00".data ++ " "
          ++ "WARN" ++ " " ++ "hello" ∧
    formatLogLine ⟨String.mk ("my-pod".data ++ '-' :: "x1".data), "hello", none,
        some (String.mk ("2024-01-01".data ++ 'T' :: ("10:00:00".data ++ '.' :: "5Z".data))),
        true⟩
      = "[" ++ String.mk "x1".data ++ "] " ++ String.mk "10:00:00".data ++ " "
          ++ "INFO" ++ " " ++ "hello" ∧
    formatLogLine ⟨String.mk ("my-pod".data ++ '-' :: "x1".data), "hello", some "WARN",
        none, true⟩
      = "[" ++ String.mk "x1".data ++ "] " ++ "WARN" ++ " " ++ "hello" :=
  format_log_line_shape "my-pod".data "x1".data "2024-01-01".data "10:00:00".data
    "5Z".data "WARN" "hello" true (by decide) (by decide) (by decide) (by decide)
